import Mathlib

/-!
Verification of the battle mini-game state machine and reward-economy engine
of the gamified quiz application.

Conventions of the shallow embedding:
* JavaScript numbers are modelled as `ℚ` (all the arithmetic the claims touch
  is exact decimal arithmetic, no rounding other than the explicit
  `Math.round` / `Math.floor` calls, which become `jsRound` / `Int.floor`),
  except for integer counters which are `ℕ`/`ℤ`.
* `Math.round` in JavaScript rounds half-up (towards +∞): `jsRound`.
* Reducer-style state transitions become pure functions on explicit
  state structures; dispatching an action is function application.
* Fallible code (functions that `throw`) returns `Except String _`.
-/

/-- JavaScript `Math.round`: rounds half away from zero towards +∞,
i.e. `Math.round x = ⌊x + 1/2⌋` for finite inputs. -/
def jsRound (x : ℚ) : ℤ := ⌊x + 1 / 2⌋

/-- Source `calculateQuestionScore` (GameContext.tsx lines 375–379):
`baseScore = 100`, `timeBonus = Math.max(0, 1 - timeSpent / 30)`,
returns `Math.round(baseScore * (1 + timeBonus))`. -/
def calculateQuestionScore (timeSpent : ℚ) : ℤ :=
  jsRound (100 * (1 + max 0 (1 - timeSpent / 30)))

/-- Spec-side per-question score formula, written from the specification's
words: `round(100 * (1 + max(0, 1 - timeSpent/30)))`. Used only to compare
against the source definition `calculateQuestionScore`. -/
def questionScoreSpec (timeSpent : ℚ) : ℤ :=
  jsRound (100 * (1 + max 0 (1 - timeSpent / 30)))

/-- C2: the per-question score function equals
`round(100 * (1 + max(0, 1 - timeSpent/30)))` for every non-negative
`timeSpent`; `questionScore 0 = 200`, `questionScore 15 = 150`,
`questionScore 30 = 100`, and any `timeSpent ≥ 30` yields exactly the
base `100`. -/
theorem question_score_formula (t : ℚ) (ht : 0 ≤ t) :
    calculateQuestionScore t = questionScoreSpec t ∧
    (30 ≤ t → calculateQuestionScore t = 100) ∧
    calculateQuestionScore 0 = 200 ∧
    calculateQuestionScore 15 = 150 ∧
    calculateQuestionScore 30 = 100 := by
  refine ⟨rfl, ?_, ?_, ?_, ?_⟩
  · intro h30
    have hb : (1 : ℚ) - t / 30 ≤ 0 := by
      have : (1 : ℚ) ≤ t / 30 := (le_div_iff₀ (by norm_num)).mpr (by linarith)
      linarith
    have hmax : max (0 : ℚ) (1 - t / 30) = 0 := max_eq_left hb
    unfold calculateQuestionScore
    rw [hmax]
    norm_num [jsRound]
  · norm_num [calculateQuestionScore, jsRound]
  · norm_num [calculateQuestionScore, jsRound]
  · norm_num [calculateQuestionScore, jsRound]

/-- Witness for C2 at the concrete input `timeSpent = 45`. -/
theorem question_score_formula_witness :
    (0 : ℚ) ≤ 45 ∧ calculateQuestionScore 45 = 100 :=
  ⟨by norm_num, (question_score_formula 45 (by norm_num)).2.1 (by norm_num)⟩

/-! ## Game state and economy (GameContext.tsx) -/

/-- The `rewardMultipliers` map of the user profile: `{xp, coins}`. -/
structure RewardMultipliers where
  xp : ℚ
  coins : ℚ
deriving Repr, DecidableEq

/-- An entry of `user.activeEffects` (payload of `ADD_EFFECT`). -/
structure ActiveEffect where
  id : String
  type : String
  value : ℚ
  startTime : String
  duration : ℚ
  sourceItemId : String
  sourceItemName : String
deriving Repr, DecidableEq

/-- The `user.statistics` fields touched by the modelled reducer cases. -/
structure UserStatistics where
  xpGained : ℚ
  coinsEarned : ℚ
deriving Repr, DecidableEq

/-- The slice of the user profile that the modelled code reads or writes. -/
structure User where
  xp : ℚ
  coins : ℚ
  level : ℕ
  streak : ℕ
  streakMultiplier : ℚ
  rewardMultipliers : RewardMultipliers
  activeEffects : List ActiveEffect
  statistics : UserStatistics
deriving Repr, DecidableEq

/-- Game state (the battle sub-state is modelled separately below). -/
structure GameState where
  user : User
deriving Repr, DecidableEq

/-- Partial user-profile update, the payload of `UPDATE_USER_PROFILE`
(JavaScript object spread: only the provided fields are replaced). -/
structure UserPatch where
  coins : Option ℚ := none
  rewardMultipliers : Option RewardMultipliers := none
deriving Repr, DecidableEq

/-- The `GameAction` cases of `gameReducer` that the claims exercise. -/
inductive GameAction where
  | ADD_XP (amount multiplier : ℚ)
  | ADD_EFFECT (payload : ActiveEffect)
  | REMOVE_EFFECT (effectId effectType : String)
  | UPDATE_USER_PROFILE (payload : UserPatch)
deriving Repr, DecidableEq

/-- Source `gameReducer` (GameContext.tsx), restricted to the modelled actions.
`ADD_XP` (lines 515–530): `totalXP = amount * multiplier * rewardMultipliers.xp`,
added to both `user.xp` and `statistics.xpGained`.
`ADD_EFFECT` (685–694): appends the payload to `activeEffects`.
`REMOVE_EFFECT` (696–713): returns the state unchanged unless `effectType` is
exactly `"xp"` or `"coins"`; otherwise filters the effect out of
`activeEffects` and divides `rewardMultipliers[effectType]` by the hardcoded
`1 + (effectType === 'xp' ? 0.5 : 1)`.
`UPDATE_USER_PROFILE` (549–558): object-spread merge of the payload. -/
def gameReducer (state : GameState) (action : GameAction) : GameState :=
  match action with
  | .ADD_XP amount multiplier =>
    let totalXP := amount * multiplier * state.user.rewardMultipliers.xp
    { state with user := { state.user with
        xp := state.user.xp + totalXP,
        statistics := { state.user.statistics with
          xpGained := state.user.statistics.xpGained + totalXP } } }
  | .ADD_EFFECT payload =>
    { state with user := { state.user with
        activeEffects := state.user.activeEffects ++ [payload] } }
  | .REMOVE_EFFECT effectId effectType =>
    if effectType ≠ "xp" ∧ effectType ≠ "coins" then state
    else
      { state with user := { state.user with
          activeEffects := state.user.activeEffects.filter (fun e => e.id ≠ effectId),
          rewardMultipliers :=
            if effectType = "xp" then
              { state.user.rewardMultipliers with
                xp := state.user.rewardMultipliers.xp / (1 + (1 / 2 : ℚ)) }
            else
              { state.user.rewardMultipliers with
                coins := state.user.rewardMultipliers.coins / (1 + (1 : ℚ)) } } }
  | .UPDATE_USER_PROFILE payload =>
    { state with user := { state.user with
        coins := payload.coins.getD state.user.coins,
        rewardMultipliers :=
          payload.rewardMultipliers.getD state.user.rewardMultipliers } }

/-- The initial game state of GameContext.tsx (lines 33–95), restricted to the
modelled fields: `xp = 0`, `coins = 0`, `level = 1`, `streak = 0`,
`streakMultiplier = 1`, `rewardMultipliers = {xp: 1, coins: 1}`, no effects. -/
def initialState : GameState :=
  { user :=
    { xp := 0
      coins := 0
      level := 1
      streak := 0
      streakMultiplier := 1
      rewardMultipliers := { xp := 1, coins := 1 }
      activeEffects := []
      statistics := { xpGained := 0, coinsEarned := 0 } } }

/-- An item effect as read by `useItemEffect` after defaulting
(`duration = effect.duration || 300`, `value = effect.value || 1.5`). -/
structure ItemEffect where
  type : String
  value : ℚ
  duration : ℚ
deriving Repr, DecidableEq

/-- One iteration of the effect-application loop of `useItemEffect`
(GameContext.tsx lines 1106–1215): for `xp_boost` / `coin_boost` it dispatches
`ADD_EFFECT` followed by `UPDATE_USER_PROFILE` with the corresponding
multiplier multiplied by `value` (computed from the pre-dispatch state);
`score_boost` / `time_boost` only dispatch `ADD_EFFECT`; an unknown type
throws. -/
def applyItemEffect (state : GameState) (effectId itemId itemName startTime : String)
    (e : ItemEffect) : Except String GameState :=
  let entry : ActiveEffect :=
    { id := effectId, type := e.type, value := e.value, startTime := startTime,
      duration := e.duration, sourceItemId := itemId, sourceItemName := itemName }
  if e.type = "xp_boost" then
    let s1 := gameReducer state (.ADD_EFFECT entry)
    .ok (gameReducer s1 (.UPDATE_USER_PROFILE
      { rewardMultipliers := some { state.user.rewardMultipliers with
          xp := state.user.rewardMultipliers.xp * e.value } }))
  else if e.type = "coin_boost" then
    let s1 := gameReducer state (.ADD_EFFECT entry)
    .ok (gameReducer s1 (.UPDATE_USER_PROFILE
      { rewardMultipliers := some { state.user.rewardMultipliers with
          coins := state.user.rewardMultipliers.coins * e.value } }))
  else if e.type = "score_boost" then
    .ok (gameReducer state (.ADD_EFFECT entry))
  else if e.type = "time_boost" then
    .ok (gameReducer state (.ADD_EFFECT entry))
  else
    .error ("Unknown effect type: " ++ e.type)

/-- The action that the `setTimeout` scheduled by `useItemEffect`
(GameContext.tsx lines 1112–1121) dispatches when the effect expires: note
that it passes the item-effect type tag (`xp_boost`, `coin_boost`,
`score_boost`, `time_boost`) as `effectType`, not `xp`/`coins`. -/
def effectExpiryAction (effectId : String) (e : ItemEffect) : GameAction :=
  .REMOVE_EFFECT effectId e.type

/-- C10: a `REMOVE_EFFECT` action whose `effectType` is anything other than
the exact strings `"xp"` or `"coins"` (in particular the `xp_boost`,
`coin_boost`, `score_boost` and `time_boost` tags dispatched by the expiry
timers, see `effectExpiryAction`) leaves the entire game state unchanged:
the effect entry stays in `activeEffects` and the multipliers are untouched. -/
theorem remove_effect_frame (s : GameState) (effectId effectType : String)
    (hx : effectType ≠ "xp") (hc : effectType ≠ "coins") :
    gameReducer s (.REMOVE_EFFECT effectId effectType) = s := by
  simp [gameReducer, hx, hc]

/-- Witness for C10: the expiry timer's own `REMOVE_EFFECT` dispatch with
`effectType = "xp_boost"` is a no-op on the initial state. -/
theorem remove_effect_frame_witness :
    gameReducer initialState (.REMOVE_EFFECT "e1" "xp_boost") = initialState :=
  remove_effect_frame initialState "e1" "xp_boost" (by decide) (by decide)

/-- C1 (code bug): activating an `xp_boost` effect with stored value `2`
multiplies the xp multiplier from `1` to `2`, but `REMOVE_EFFECT` divides by
the hardcoded `1.5` rather than the stored value, leaving `4/3 ≠ 1`; the
expiry timer's own dispatch (`effectType = "xp_boost"`) removes nothing at
all, leaving `2 ≠ 1`. Either way the multiplicative round-trip of the claim
fails on the code. -/
theorem remove_effect_roundtrip_failure :
    (Except.map
        (fun s1 => (gameReducer s1 (.REMOVE_EFFECT "e1" "xp")).user.rewardMultipliers.xp)
        (applyItemEffect initialState "e1" "i1" "Item" "t0"
          { type := "xp_boost", value := 2, duration := 300 })
      = .ok (4 / 3 : ℚ)) ∧ (4 / 3 : ℚ) ≠ 1 ∧
    (Except.map
        (fun s1 => (gameReducer s1
            (effectExpiryAction "e1" { type := "xp_boost", value := 2, duration := 300 })).user.rewardMultipliers.xp)
        (applyItemEffect initialState "e1" "i1" "Item" "t0"
          { type := "xp_boost", value := 2, duration := 300 })
      = .ok (2 : ℚ)) ∧ (2 : ℚ) ≠ 1 := by
  refine ⟨?_, by norm_num, ?_, by norm_num⟩ <;>
    simp [applyItemEffect, gameReducer, effectExpiryAction, initialState, Except.map] <;>
    norm_num

/-- Source `handleCoinTransaction` (GameContext.tsx lines 988–1010): an
`'earn'` source scales the amount by `rewardMultipliers.coins *
streakMultiplier` (rounded) and credits it; any other source debits the raw
amount; a resulting negative balance throws `'Insufficient coins'` before any
mutation; otherwise the new balance is persisted and dispatched. -/
def handleCoinTransaction (user : User) (amount : ℚ) (source : String) :
    Except String User :=
  let newAmount := if source = "earn"
    then (jsRound (amount * user.rewardMultipliers.coins * user.streakMultiplier) : ℚ)
    else amount
  let newBalance := if source = "earn" then user.coins + newAmount
    else user.coins - newAmount
  if newBalance < 0 then .error "Insufficient coins"
  else .ok { user with coins := newBalance }

/-- C5: a coin debit (any source other than `'earn'`, e.g. a purchase) is
applied with no multiplier scaling — the new balance is exactly
`coins - amount` — and a debit exceeding the current balance is rejected with
the insufficient-funds error, producing no new state (the throw precedes the
persistence call and the dispatch in the source). -/
theorem coin_debit_no_multiplier_and_insufficient_funds
    (u : User) (amount : ℚ) (source : String) (hsrc : source ≠ "earn") :
    (u.coins < amount →
      handleCoinTransaction u amount source = .error "Insufficient coins") ∧
    (amount ≤ u.coins →
      handleCoinTransaction u amount source = .ok { u with coins := u.coins - amount }) := by
  unfold handleCoinTransaction
  simp only [if_neg hsrc]
  constructor
  · intro h
    rw [if_pos (by linarith)]
  · intro h
    rw [if_neg (by linarith)]

/-- Witness for C5: a debit of 50 coins from a 30-coin balance is rejected,
and a debit of 10 goes through as a flat subtraction, on a user whose coin
multiplier is 3 (showing the multiplier is not applied). -/
theorem coin_debit_witness :
    "purchase" ≠ "earn" ∧
    ((initialState.user.coins < 50 →
        handleCoinTransaction initialState.user 50 "purchase" = .error "Insufficient coins") ∧
      (50 ≤ initialState.user.coins →
        handleCoinTransaction initialState.user 50 "purchase" =
          .ok { initialState.user with coins := initialState.user.coins - 50 })) :=
  ⟨by decide,
    coin_debit_no_multiplier_and_insufficient_funds initialState.user 50 "purchase"
      (by decide)⟩

/-- Source `handleXPGain` (GameContext.tsx lines 885–917) up to and including
the `ADD_XP` dispatch: `multiplier = rewardMultipliers.xp * streakMultiplier`,
`totalXP = Math.round(amount * multiplier)`, then
`dispatch({type: 'ADD_XP', payload: {amount: totalXP, multiplier}})` is
processed by `gameReducer` (the activity-log dispatch does not change the
modelled state; the level-up branch and the database write are downstream of
this step and use `state.user.xp + totalXP`). -/
def handleXPGainStep (state : GameState) (amount : ℚ) : GameState :=
  let multiplier := state.user.rewardMultipliers.xp * state.user.streakMultiplier
  let totalXP := (jsRound (amount * multiplier) : ℚ)
  gameReducer state (.ADD_XP totalXP multiplier)

/-- A user whose xp reward multiplier is 2 (e.g. an active `xp_boost` of
value 2) and whose streak multiplier is 1, with 0 XP. -/
def doubleScaleExample : GameState :=
  { initialState with user := { initialState.user with
      rewardMultipliers := { xp := 2, coins := 1 } } }

/-- C8 (code bug): granting 100 XP at combined multiplier 2 should add
`round(100 * 2) = 200` XP — and this is exactly the `totalXP` that
`handleXPGain` logs and writes to the database — but the `ADD_XP` reducer
case multiplies the already-scaled amount again by `multiplier` and by
`rewardMultipliers.xp`, so the in-memory XP increases by `200 * 2 * 2 = 800`. -/
theorem xp_gain_double_scaled :
    (handleXPGainStep doubleScaleExample 100).user.xp = 800 ∧
    (jsRound (100 * ((2 : ℚ) * 1)) : ℚ) = 200 ∧
    (800 : ℚ) ≠ 0 + 200 := by
  refine ⟨?_, ?_, by norm_num⟩ <;>
    simp [handleXPGainStep, gameReducer, doubleScaleExample, initialState, jsRound] <;>
    norm_num

/-! ## Battle state (GameContext.tsx battle slice, useBattle hook,
and the battle reducer of the BattleContext file) -/

/-- A battle question as produced by `BattleService.getQuestions`. -/
structure BattleQuestion where
  id : String
  question : String
  answers : List String
  correctAnswer : ℕ
deriving Repr, DecidableEq

/-- Player/opponent score accumulators. -/
structure BattleScore where
  player : ℤ
  opponent : ℤ
deriving Repr, DecidableEq

/-- The battle session state shared by the GameContext battle slice and the
battle reducer. Statuses are the string tags used by the source
(`searching`, `ready`, `battle`, `completed`, `active`, `idle`, `complete`). -/
structure BattleState where
  status : String
  inProgress : Bool
  questions : List BattleQuestion
  currentQuestion : ℕ
  score : BattleScore
  timeLeft : ℤ
  timePerQuestion : ℤ
  playerAnswers : List Bool
deriving Repr, DecidableEq

/-- The battle-slice action relevant to answer submission. -/
inductive BattleUpdateAction where
  | ANSWER_QUESTION (isCorrect : Bool) (timeSpent : ℚ)
deriving Repr, DecidableEq

/-- Source `handleBattleStateUpdate` (GameContext.tsx lines 381–447),
restricted to `ANSWER_QUESTION` (lines 395–411): adds
`calculateQuestionScore(timeSpent)` to the player score when correct,
appends the correctness flag to `playerAnswers`, advances
`currentQuestion` and resets `timeLeft` to `timePerQuestion`. -/
def handleBattleStateUpdate (battleState : BattleState)
    (action : BattleUpdateAction) : BattleState :=
  match action with
  | .ANSWER_QUESTION isCorrect timeSpent =>
    let newScore := if isCorrect
      then battleState.score.player + calculateQuestionScore timeSpent
      else battleState.score.player
    { battleState with
        currentQuestion := battleState.currentQuestion + 1,
        score := { battleState.score with player := newScore },
        playerAnswers := battleState.playerAnswers ++ [isCorrect],
        timeLeft := battleState.timePerQuestion }

/-- Modelled from the spec: `BattleService.checkAnswer` is not under `src/`
(only its call site in the battle hook is); the spec's answer evaluation
compares the submitted answer to the question's correct-answer index. -/
def checkAnswer (q : BattleQuestion) (answer : String) : Bool :=
  q.answers[q.correctAnswer]? == some answer

/-- Source `handleAnswer` of the `useBattle` hook (lines 200–228 of the
battle-hook file): returns immediately when `status !== 'active'`; otherwise
looks up the current question (a missing question throws, which routes to
`handleBattleError` — that path dispatches only `SET_BATTLE_ERROR`, leaving
the battle slice unchanged) and dispatches `ANSWER_QUESTION` with the
evaluated correctness. The `mountedRef` guard is a UI-lifecycle concern and
is not modelled. -/
def handleAnswer (battle : BattleState) (answer : String) (timeSpent : ℚ) :
    BattleState :=
  if battle.status ≠ "active" then battle
  else
    match battle.questions[battle.currentQuestion]? with
    | none => battle
    | some q =>
      handleBattleStateUpdate battle (.ANSWER_QUESTION (checkAnswer q answer) timeSpent)

/-- Any single `handleAnswer` call either leaves the battle state unchanged
(guard rejection or missing question) or advances `currentQuestion` by one,
appending exactly one entry to `playerAnswers` and preserving the status. -/
theorem handleAnswer_advance_or_id (s : BattleState) (a : String) (t : ℚ) :
    handleAnswer s a t = s ∨
    ((handleAnswer s a t).currentQuestion = s.currentQuestion + 1 ∧
      (handleAnswer s a t).playerAnswers.length = s.playerAnswers.length + 1 ∧
      (handleAnswer s a t).status = s.status) := by
  by_cases h : s.status = "active"
  · cases hq : s.questions[s.currentQuestion]? with
    | none => exact Or.inl (by simp [handleAnswer, h, hq])
    | some q => exact Or.inr (by simp [handleAnswer, h, hq, handleBattleStateUpdate])
  · exact Or.inl (by simp [handleAnswer, h])

/-- C4: answer submission is guarded by the current status — for every battle
state whose status is not `'active'`, submitting an answer changes nothing
(no score credit, no `playerAnswers` append, no index advance). A processed
submission advances `currentQuestion` by one and appends exactly one answer,
so a second submission is either ignored or processed for the next index —
never re-crediting the same question index (score is credited at most once
per index). -/
theorem answer_submission_guard (b : BattleState) (a a2 : String) (t t2 : ℚ) :
    (b.status ≠ "active" → handleAnswer b a t = b) ∧
    (b.status = "active" → b.currentQuestion < b.questions.length →
      (handleAnswer b a t).currentQuestion = b.currentQuestion + 1 ∧
      (handleAnswer b a t).playerAnswers.length = b.playerAnswers.length + 1 ∧
      (handleAnswer (handleAnswer b a t) a2 t2 = handleAnswer b a t ∨
        (handleAnswer (handleAnswer b a t) a2 t2).currentQuestion =
          b.currentQuestion + 2)) := by
  constructor
  · intro h
    simp [handleAnswer, h]
  · intro hs hlt
    have hq : b.questions[b.currentQuestion]? = some b.questions[b.currentQuestion] :=
      List.getElem?_eq_getElem hlt
    have h1 : handleAnswer b a t =
        handleBattleStateUpdate b
          (.ANSWER_QUESTION (checkAnswer b.questions[b.currentQuestion] a) t) := by
      simp [handleAnswer, hs, hq]
    have hcq : (handleAnswer b a t).currentQuestion = b.currentQuestion + 1 := by
      simp [h1, handleBattleStateUpdate]
    refine ⟨hcq, by simp [h1, handleBattleStateUpdate], ?_⟩
    rcases handleAnswer_advance_or_id (handleAnswer b a t) a2 t2 with h | ⟨h, -, -⟩
    · exact Or.inl h
    · exact Or.inr (by rw [h, hcq])

/-- A completed battle session used to witness the guard. -/
def completedBattle : BattleState :=
  { status := "complete", inProgress := false,
    questions := [], currentQuestion := 2,
    score := { player := 150, opponent := 100 },
    timeLeft := 0, timePerQuestion := 30, playerAnswers := [true, false] }

/-- Witness for C4: submitting an answer on a session whose status is
`'complete'` changes nothing. -/
theorem answer_submission_guard_witness :
    handleAnswer completedBattle "some answer" 5 = completedBattle :=
  (answer_submission_guard completedBattle "some answer" "late" 5 6).1 (by decide)

/-- Modelled from the spec: `BATTLE_CONFIG` (the battle config module) is not
under `src/`; the spec gives `timePerQuestion` a default of 30 seconds. -/
def BATTLE_CONFIG_timePerQuestion : ℤ := 30

/-- The battle-reducer action relevant to timer ticks. -/
inductive BattleAction where
  | SET_TIME_LEFT (payload : ℤ)
deriving Repr, DecidableEq

/-- Source `battleReducer` of the BattleContext file (lines 117–138),
restricted to `SET_TIME_LEFT`: ignored unless `inProgress` and
`status === 'battle'`; clamps the payload at 0; when the clamped time is 0
and more questions remain (`currentQuestion < questions.length - 1`),
advances `currentQuestion` and resets `timeLeft` to
`BATTLE_CONFIG.timePerQuestion`; otherwise just stores the clamped time. -/
def battleReducer (state : BattleState) (action : BattleAction) : BattleState :=
  match action with
  | .SET_TIME_LEFT payload =>
    if ¬ state.inProgress ∨ state.status ≠ "battle" then state
    else
      let newTimeLeft := max 0 payload
      if newTimeLeft = 0 ∧
          (state.currentQuestion : ℤ) < (state.questions.length : ℤ) - 1 then
        { state with timeLeft := BATTLE_CONFIG_timePerQuestion,
                     currentQuestion := state.currentQuestion + 1 }
      else
        { state with timeLeft := newTimeLeft }

/-- A four-answer sample question. -/
def sampleQuestion (i : String) : BattleQuestion :=
  { id := i, question := "q", answers := ["a", "b", "c", "d"], correctAnswer := 0 }

/-- An active two-question battle at the first question. -/
def timeoutTwoQuestions : BattleState :=
  { status := "battle", inProgress := true,
    questions := [sampleQuestion "q1", sampleQuestion "q2"], currentQuestion := 0,
    score := { player := 0, opponent := 0 },
    timeLeft := 1, timePerQuestion := 30, playerAnswers := [] }

/-- An active one-question battle at its (last) question. -/
def timeoutLastQuestion : BattleState :=
  { status := "battle", inProgress := true,
    questions := [sampleQuestion "q1"], currentQuestion := 0,
    score := { player := 0, opponent := 0 },
    timeLeft := 1, timePerQuestion := 30, playerAnswers := [] }

/-- Counterexample to C3 as stated: a tick to 0 with a question remaining
advances the question but appends nothing to `playerAnswers` (the claim says
an incorrect entry is appended), and a tick to 0 on the last question leaves
the status at `'battle'` with `timeLeft = 0` instead of transitioning to
completed. -/
theorem set_time_left_counterexample :
    (battleReducer timeoutTwoQuestions (.SET_TIME_LEFT 0)).currentQuestion =
      timeoutTwoQuestions.currentQuestion + 1 ∧
    (battleReducer timeoutTwoQuestions (.SET_TIME_LEFT 0)).playerAnswers.length ≠
      timeoutTwoQuestions.playerAnswers.length + 1 ∧
    (battleReducer timeoutLastQuestion (.SET_TIME_LEFT 0)).status ≠ "completed" ∧
    (battleReducer timeoutLastQuestion (.SET_TIME_LEFT 0)).timeLeft = 0 := by
  refine ⟨?_, ?_, ?_, ?_⟩ <;>
    simp [battleReducer, timeoutTwoQuestions, timeoutLastQuestion,
      BATTLE_CONFIG_timePerQuestion]

/-- C3 (amended): while `inProgress` with status `'battle'`, a tick whose
payload clamps to 0 with more questions remaining advances `currentQuestion`
by one and resets `timeLeft` to the configured `timePerQuestion`, leaving
`playerAnswers` and the score untouched (no entry is recorded for the
unanswered question); a tick clamping to 0 on the last question (or with no
questions) merely stores `timeLeft = 0`, leaving the status unchanged —
completion is not triggered by this reducer. -/
theorem set_time_left_amended (s : BattleState) (n : ℤ)
    (hp : s.inProgress = true) (hb : s.status = "battle") (hn : n ≤ 0) :
    ((s.currentQuestion : ℤ) < (s.questions.length : ℤ) - 1 →
      battleReducer s (.SET_TIME_LEFT n) =
        { s with timeLeft := BATTLE_CONFIG_timePerQuestion,
                 currentQuestion := s.currentQuestion + 1 }) ∧
    (¬ (s.currentQuestion : ℤ) < (s.questions.length : ℤ) - 1 →
      battleReducer s (.SET_TIME_LEFT n) = { s with timeLeft := 0 }) := by
  have hmax : max (0 : ℤ) n = 0 := max_eq_left hn
  constructor
  · intro hlt
    simp [battleReducer, hp, hb, hmax, hlt]
  · intro hge
    simp [battleReducer, hp, hb, hmax, hge]

/-- Witness for C3 (amended) at the concrete two-question battle state. -/
theorem set_time_left_amended_witness :
    battleReducer timeoutTwoQuestions (.SET_TIME_LEFT 0) =
      { timeoutTwoQuestions with
          timeLeft := BATTLE_CONFIG_timePerQuestion,
          currentQuestion := timeoutTwoQuestions.currentQuestion + 1 } :=
  (set_time_left_amended timeoutTwoQuestions 0 (by decide) (by decide)
    (by decide)).1 (by decide)

/-! ## Battle session recovery (battleService.ts) -/

/-- The saved `battle_state` JSON written by `saveBattleProgress`
(battleService.ts lines 143–155): the battle snapshot plus a save
timestamp (modelled in epoch milliseconds). -/
structure SavedBattleState where
  battle : BattleState
  lastError : Option String
  timestamp : ℤ
deriving Repr, DecidableEq

/-- A row of the `battle_saves` table for one user. -/
structure BattleSave where
  rowId : String
  battle_state : Option SavedBattleState
deriving Repr, DecidableEq

/-- One hour in milliseconds (`60 * 60 * 1000`, battleService.ts line 208). -/
def hourInMs : ℤ := 60 * 60 * 1000

/-- Source `BattleService.recoverBattleState` (battleService.ts lines
183–230), modelled over the user's `battle_saves` row (the per-user query
result) and the current time in ms. Returns the recovered state and the
row left in the table afterwards: no row (`PGRST116`) or a row without a
`battle_state` yields `none` (the latter without deleting); a save whose
timestamp is more than one hour old is deleted and `none` is returned;
otherwise the save is deleted (clean-up) and its state returned. -/
def recoverBattleState (row : Option BattleSave) (currentTime : ℤ) :
    Option SavedBattleState × Option BattleSave :=
  match row with
  | none => (none, none)
  | some data =>
    match data.battle_state with
    | none => (none, some data)
    | some saved =>
      if currentTime - saved.timestamp > hourInMs then (none, none)
      else (some saved, none)

/-- C9: session recovery discards stale saves — `recoverBattleState` returns
null when no save exists; when the saved timestamp is more than 1 hour old it
returns null and deletes the stale row; a save at most 1 hour old is returned
and the row is cleaned up. -/
theorem recover_session_staleness (data : BattleSave) (saved : SavedBattleState)
    (currentTime : ℤ) (hsaved : data.battle_state = some saved) :
    recoverBattleState none currentTime = (none, none) ∧
    (currentTime - saved.timestamp > hourInMs →
      recoverBattleState (some data) currentTime = (none, none)) ∧
    (currentTime - saved.timestamp ≤ hourInMs →
      recoverBattleState (some data) currentTime = (some saved, none)) := by
  refine ⟨rfl, ?_, ?_⟩
  · intro h
    simp [recoverBattleState, hsaved, h]
  · intro h
    simp [recoverBattleState, hsaved]
    linarith

/-! ## Quest progress (GameContext.tsx `handleQuestProgress`) -/

/-- One quest requirement, flattening `requirement_value.{current, target}`
(the `current || 0` defaulting of the source is the identity once `current`
is a number). -/
structure QuestRequirement where
  type : String
  current : ℚ
  target : ℚ
deriving Repr, DecidableEq

/-- The JavaScript `Map<string, {current, target}>` built by
`handleQuestProgress`, as an insertion-ordered association list. -/
abbrev ProgressMap := List (String × ℚ × ℚ)

/-- JavaScript `Map.has`. -/
def mapHas (m : ProgressMap) (k : String) : Bool :=
  m.any (fun p => p.1 == k)

/-- JavaScript `Map.get` (first — and, by the `set` semantics, only —
binding of the key). -/
def mapGet (m : ProgressMap) (k : String) : Option (ℚ × ℚ) :=
  (m.find? (fun p => p.1 == k)).map (fun p => p.2)

/-- JavaScript `Map.set`: overwrites the binding in place when the key is
present, otherwise appends in insertion order. -/
def mapSet (m : ProgressMap) (k : String) (v : ℚ × ℚ) : ProgressMap :=
  if mapHas m k then m.map (fun p => if p.1 == k then (k, v) else p)
  else m ++ [(k, v)]

/-- Replacing every binding of `k` makes the first lookup of `k` find the
replacement, provided some binding of `k` exists. -/
theorem find?_replace_self (l : ProgressMap) (k : String) (v : ℚ × ℚ)
    (h : l.any (fun p => p.1 == k) = true) :
    (l.map (fun p => if p.1 == k then (k, v) else p)).find? (fun p => p.1 == k)
      = some (k, v) := by
  induction l with
  | nil => simp at h
  | cons p l ih =>
    by_cases hp : (p.1 == k) = true
    · simp [List.find?, hp]
    · simp only [List.any_cons, Bool.or_eq_true] at h
      rcases h with h | h
      · exact absurd h hp
      · simpa [List.find?, hp] using ih h

/-- Replacing bindings of `k` does not affect lookups of a different key. -/
theorem find?_replace_ne (l : ProgressMap) (k k' : String) (v : ℚ × ℚ)
    (h : (k' == k) = false) :
    (l.map (fun p => if p.1 == k then (k, v) else p)).find? (fun p => p.1 == k')
      = l.find? (fun p => p.1 == k') := by
  induction l with
  | nil => rfl
  | cons p l ih =>
    by_cases hp : (p.1 == k) = true
    · have hpk : p.1 = k := by simpa using hp
      have h1 : (k == k') = false := by
        simp only [beq_eq_false_iff_ne] at h ⊢
        exact fun hc => h hc.symm
      have h2 : (p.1 == k') = false := by rw [hpk]; exact h1
      simpa [List.find?, hp, h1, h2] using ih
    · by_cases hq : (p.1 == k') = true
      · simp [List.find?, hp, hq]
      · simpa [List.find?, hp, hq] using ih

/-- When no element of `l` binds `k`, the first lookup of `k` in
`l ++ [(k, v)]` finds the appended binding. -/
theorem find?_append_single_none (l : ProgressMap) (k : String) (v : ℚ × ℚ)
    (hall : ∀ p ∈ l, ¬ (p.1 == k) = true) :
    (l ++ [(k, v)]).find? (fun p => p.1 == k) = some (k, v) := by
  induction l with
  | nil => simp [List.find?]
  | cons p l ih =>
    have hp := hall p (List.mem_cons_self p l)
    have hs : List.find? (fun q => q.1 == k) (p :: (l ++ [(k, v)]))
        = List.find? (fun q => q.1 == k) (l ++ [(k, v)]) :=
      List.find?_cons_of_neg _ hp
    rw [List.cons_append, hs]
    exact ih (fun q hq => hall q (List.mem_cons_of_mem p hq))

/-- `mapGet` after `mapSet` of the same key yields the new value. -/
theorem mapGet_set_self (m : ProgressMap) (k : String) (v : ℚ × ℚ) :
    mapGet (mapSet m k v) k = some v := by
  unfold mapSet
  by_cases h : mapHas m k = true
  · rw [if_pos h]
    unfold mapGet
    rw [find?_replace_self m k v h]
    rfl
  · rw [if_neg h]
    have hall : ∀ p ∈ m, ¬ (p.1 == k) = true := by
      intro p hp hc
      exact h (List.any_eq_true.mpr ⟨p, hp, hc⟩)
    unfold mapGet
    rw [find?_append_single_none m k v hall]
    rfl

/-- Appending a single binding of key `k` does not affect lookups of a
different key. -/
theorem find?_append_single_ne (l : ProgressMap) (k k' : String) (v : ℚ × ℚ)
    (h : (k == k') = false) :
    (l ++ [(k, v)]).find? (fun p => p.1 == k') = l.find? (fun p => p.1 == k') := by
  induction l with
  | nil =>
    have hs : List.find? (fun q => q.1 == k') ((k, v) :: ([] : ProgressMap))
        = List.find? (fun q => q.1 == k') [] :=
      List.find?_cons_of_neg _ (by simp [h])
    rw [List.nil_append]
    exact hs
  | cons p l ih =>
    by_cases hq : (p.1 == k') = true
    · simp [List.find?, hq]
    · have hs1 : List.find? (fun q => q.1 == k') (p :: (l ++ [(k, v)]))
          = List.find? (fun q => q.1 == k') (l ++ [(k, v)]) :=
        List.find?_cons_of_neg _ hq
      have hs2 : List.find? (fun q => q.1 == k') (p :: l)
          = List.find? (fun q => q.1 == k') l :=
        List.find?_cons_of_neg _ hq
      rw [List.cons_append, hs1, hs2]
      exact ih

/-- `mapGet` after `mapSet` of a different key is unchanged. -/
theorem mapGet_set_ne (m : ProgressMap) (k k' : String) (v : ℚ × ℚ)
    (h : k' ≠ k) :
    mapGet (mapSet m k v) k' = mapGet m k' := by
  have hbeq : (k' == k) = false := beq_eq_false_iff_ne.mpr h
  have hbeq2 : (k == k') = false := beq_eq_false_iff_ne.mpr (Ne.symm h)
  unfold mapSet
  by_cases hh : mapHas m k = true
  · rw [if_pos hh]
    unfold mapGet
    rw [find?_replace_ne m k k' v hbeq]
  · rw [if_neg hh]
    unfold mapGet
    rw [find?_append_single_ne m k k' v hbeq2]

/-- A successful `mapGet` implies `mapHas`. -/
theorem mapHas_of_get (m : ProgressMap) (k : String) (v : ℚ × ℚ)
    (h : mapGet m k = some v) : mapHas m k = true := by
  induction m with
  | nil => simp [mapGet] at h
  | cons p l ih =>
    by_cases hp : (p.1 == k) = true
    · unfold mapHas
      simp [List.any_cons, hp]
    · have hstep : List.find? (fun q => q.1 == k) (p :: l)
          = List.find? (fun q => q.1 == k) l :=
        List.find?_cons_of_neg _ hp
      unfold mapGet at h
      rw [hstep] at h
      have htail : mapHas l k = true := ih h
      unfold mapHas at htail ⊢
      rw [List.any_cons]
      rw [Bool.not_eq_true] at hp
      rw [hp, Bool.false_or]
      exact htail

/-- The progress map built by the `requirements.forEach` loop
(GameContext.tsx lines 1255–1262). -/
def buildProgressMap (reqs : List QuestRequirement) : ProgressMap :=
  reqs.foldl (fun m req => mapSet m req.type (req.current, req.target)) []

/-- Folding requirements whose types all differ from `k` over any map leaves
lookups of `k` unchanged. -/
theorem mapGet_build_skip (k : String) :
    ∀ (reqs : List QuestRequirement) (m : ProgressMap),
      (∀ r ∈ reqs, r.type ≠ k) →
      mapGet (reqs.foldl (fun m req => mapSet m req.type (req.current, req.target)) m) k
        = mapGet m k := by
  intro reqs
  induction reqs with
  | nil => intro m _; rfl
  | cons a l ih =>
    intro m h
    simp only [List.foldl_cons]
    rw [ih _ (fun r hr => h r (List.mem_cons_of_mem a hr))]
    exact mapGet_set_ne m a.type k _ (Ne.symm (h a (List.mem_cons_self a l)))

/-- With pairwise-distinct requirement types, the built map binds each
requirement's type to its `{current, target}` pair. -/
theorem mapGet_build_mem :
    ∀ (reqs : List QuestRequirement),
      (reqs.map (fun r => r.type)).Nodup →
      ∀ r ∈ reqs, ∀ (m : ProgressMap),
        mapGet (reqs.foldl (fun m req => mapSet m req.type (req.current, req.target)) m)
            r.type
          = some (r.current, r.target) := by
  intro reqs
  induction reqs with
  | nil => intro _ r hr; simp at hr
  | cons a l ih =>
    intro hnd r hr m
    simp only [List.map_cons, List.nodup_cons] at hnd
    obtain ⟨hna, hndl⟩ := hnd
    rcases List.mem_cons.mp hr with rfl | hrl
    · simp only [List.foldl_cons]
      rw [mapGet_build_skip r.type l _ ?hne]
      · exact mapGet_set_self m r.type _
      case hne =>
        intro x hx hc
        exact hna (hc ▸ List.mem_map_of_mem (fun r => r.type) hx)
    · simp only [List.foldl_cons]
      exact ih hndl r hrl _

/-- The map after the requirement update (GameContext.tsx lines 1264–1269):
when the requirement type is present, its `current` becomes
`Math.min(current + progress, target)`. -/
def questProgressMapAfter (reqs : List QuestRequirement) (reqType : String)
    (inc : ℚ) : ProgressMap :=
  let m0 := buildProgressMap reqs
  if mapHas m0 reqType then
    match mapGet m0 reqType with
    | some (cur, tgt) => mapSet m0 reqType (min (cur + inc) tgt, tgt)
    | none => m0
  else m0

/-- The rebuilt requirements array (GameContext.tsx lines 1271–1279): each
requirement's `current` becomes the map entry's `current` (or 0 when
absent); the `description` string also rebuilt there carries no state and
is not modelled. -/
def updatedRequirements (reqs : List QuestRequirement) (reqType : String)
    (inc : ℚ) : List QuestRequirement :=
  let m1 := questProgressMapAfter reqs reqType inc
  reqs.map (fun req =>
    { req with current := ((mapGet m1 req.type).map (fun p => p.1)).getD 0 })

/-- The `allCompleted` check (GameContext.tsx lines 1281–1284): every updated
requirement's map entry has `current >= target` (a missing entry counts as
not completed). -/
def allRequirementsCompleted (reqs : List QuestRequirement) (reqType : String)
    (inc : ℚ) : Bool :=
  let m1 := questProgressMapAfter reqs reqType inc
  (updatedRequirements reqs reqType inc).all (fun req =>
    match mapGet m1 req.type with
    | some (c, tg) => decide (c ≥ tg)
    | none => false)

/-- Source `handleQuestProgress` (GameContext.tsx lines 1245–1408), reduced
to its data computation: the updated requirements plus the progress value it
dispatches — `100` when every requirement is complete (the completion
branch), otherwise `Math.floor((currentTotal / totalTarget) * 100)` over all
requirements (lines 1373–1391). -/
def handleQuestProgress (reqs : List QuestRequirement) (reqType : String)
    (inc : ℚ) : List QuestRequirement × ℤ :=
  let m1 := questProgressMapAfter reqs reqType inc
  let updated := updatedRequirements reqs reqType inc
  if allRequirementsCompleted reqs reqType inc then (updated, 100)
  else
    let totalTarget := updated.foldl (fun s req => s + req.target) 0
    let currentTotal := updated.foldl (fun s req =>
      s + ((mapGet m1 req.type).map (fun p => p.1)).getD 0) 0
    (updated, ⌊currentTotal / totalTarget * 100⌋)

/-- Pointwise description of the updated map under distinct requirement
types: the updated requirement type is clamped, all others keep their
current value. -/
theorem questProgress_pointwise (reqs : List QuestRequirement) (reqType : String)
    (inc : ℚ) (rstar : QuestRequirement)
    (hnd : (reqs.map (fun r => r.type)).Nodup)
    (hmem : rstar ∈ reqs) (htype : rstar.type = reqType) :
    ∀ r ∈ reqs, mapGet (questProgressMapAfter reqs reqType inc) r.type =
      some ((if r.type = reqType then min (r.current + inc) r.target else r.current),
        r.target) := by
  have hget0 : ∀ r ∈ reqs, mapGet (buildProgressMap reqs) r.type
      = some (r.current, r.target) :=
    fun r hr => mapGet_build_mem reqs hnd r hr []
  have hrt : mapGet (buildProgressMap reqs) reqType = some (rstar.current, rstar.target) :=
    htype ▸ hget0 rstar hmem
  have hhas : mapHas (buildProgressMap reqs) reqType = true :=
    mapHas_of_get _ _ _ hrt
  intro r hr
  have hm1 : questProgressMapAfter reqs reqType inc =
      mapSet (buildProgressMap reqs) reqType
        (min (rstar.current + inc) rstar.target, rstar.target) := by
    unfold questProgressMapAfter
    rw [if_pos hhas, hrt]
  by_cases hcase : r.type = reqType
  · have hr_eq : r = rstar :=
      List.inj_on_of_nodup_map hnd hr hmem (by rw [hcase, htype])
    subst hr_eq
    rw [hm1, hcase, mapGet_set_self, if_pos rfl]
  · rw [hm1, mapGet_set_ne _ _ _ _ hcase, hget0 r hr, if_neg hcase]

/-- Under the same hypotheses the updated requirements array is the original
array with exactly the targeted requirement's `current` clamped to
`min (current + inc, target)`. -/
theorem updatedRequirements_eq (reqs : List QuestRequirement) (reqType : String)
    (inc : ℚ) (rstar : QuestRequirement)
    (hnd : (reqs.map (fun r => r.type)).Nodup)
    (hmem : rstar ∈ reqs) (htype : rstar.type = reqType) :
    updatedRequirements reqs reqType inc = reqs.map (fun r =>
      if r.type = reqType then { r with current := min (r.current + inc) r.target }
      else r) := by
  unfold updatedRequirements
  refine List.map_congr_left ?_
  intro r hr
  rw [questProgress_pointwise reqs reqType inc rstar hnd hmem htype r hr]
  by_cases hcase : r.type = reqType
  · rw [if_pos hcase, if_pos hcase]
    rfl
  · rw [if_neg hcase, if_neg hcase]
    cases r
    simp

/-- Folding `+ g` over a list starting from `a` is `a` plus the mapped sum. -/
theorem foldl_add_sum (g : QuestRequirement → ℚ) :
    ∀ (l : List QuestRequirement) (a : ℚ),
      l.foldl (fun s r => s + g r) a = a + (l.map g).sum := by
  intro l
  induction l with
  | nil => intro a; simp
  | cons x l ih =>
    intro a
    simp only [List.foldl_cons, List.map_cons, List.sum_cons]
    rw [ih (a + g x)]
    ring

/-- C6: quest-progress updating clamps each requirement — after the update
the targeted requirement's `current` is `min(current + inc, target)`, every
requirement's `current` stays at most its `target`, and the dispatched
overall progress equals `floor(100 * sum(current)/sum(target))` and never
exceeds 100. Hypotheses: the quest's requirement types are pairwise
distinct (they key the progress map), the targeted type belongs to some
requirement, the increment is non-negative, and every requirement satisfies
the `0 ≤ current ≤ target`, `0 < target` well-formedness invariant. -/
theorem quest_progress_clamped (reqs : List QuestRequirement) (reqType : String)
    (inc : ℚ) (rstar : QuestRequirement)
    (hnd : (reqs.map (fun r => r.type)).Nodup)
    (hmem : rstar ∈ reqs) (htype : rstar.type = reqType)
    (hinc : 0 ≤ inc)
    (hwf : ∀ r ∈ reqs, 0 ≤ r.current ∧ r.current ≤ r.target ∧ 0 < r.target) :
    (handleQuestProgress reqs reqType inc).1 = reqs.map (fun r =>
      if r.type = reqType then { r with current := min (r.current + inc) r.target }
      else r) ∧
    (∀ r ∈ (handleQuestProgress reqs reqType inc).1, r.current ≤ r.target) ∧
    (handleQuestProgress reqs reqType inc).2 =
      ⌊(((handleQuestProgress reqs reqType inc).1.map (fun r => r.current)).sum /
          ((handleQuestProgress reqs reqType inc).1.map (fun r => r.target)).sum)
        * 100⌋ ∧
    (handleQuestProgress reqs reqType inc).2 ≤ 100 := by
  set f := fun r : QuestRequirement =>
    if r.type = reqType then { r with current := min (r.current + inc) r.target }
    else r with hf
  have hupd : updatedRequirements reqs reqType inc = reqs.map f :=
    updatedRequirements_eq reqs reqType inc rstar hnd hmem htype
  have hpoint := questProgress_pointwise reqs reqType inc rstar hnd hmem htype
  have hftype : ∀ r, (f r).type = r.type := by
    intro r
    by_cases h : r.type = reqType <;> simp [hf, h]
  have hftarget : ∀ r, (f r).target = r.target := by
    intro r
    by_cases h : r.type = reqType <;> simp [hf, h]
  have hfcur : ∀ r, (f r).current =
      (if r.type = reqType then min (r.current + inc) r.target else r.current) := by
    intro r
    by_cases h : r.type = reqType <;> simp [hf, h]
  have hclamp : ∀ r ∈ reqs.map f, r.current ≤ r.target := by
    intro r' hr'
    obtain ⟨r, hr, rfl⟩ := List.mem_map.mp hr'
    rw [hfcur r, hftarget r]
    by_cases h : r.type = reqType
    · rw [if_pos h]
      exact min_le_right _ _
    · rw [if_neg h]
      exact (hwf r hr).2.1
  have hgetf : ∀ r ∈ reqs,
      mapGet (questProgressMapAfter reqs reqType inc) (f r).type =
        some ((f r).current, (f r).target) := by
    intro r hr
    rw [hftype r, hpoint r hr, hfcur r, hftarget r]
  have hTpos : 0 < ((reqs.map f).map (fun r => r.target)).sum := by
    refine List.sum_pos _ ?_ ?_
    · intro x hx
      obtain ⟨r', hr', rfl⟩ := List.mem_map.mp hx
      obtain ⟨r, hr, rfl⟩ := List.mem_map.mp hr'
      rw [hftarget r]
      exact (hwf r hr).2.2
    · exact List.ne_nil_of_mem
        (List.mem_map_of_mem _ (List.mem_map_of_mem f hmem))
  have hTne : ((reqs.map f).map (fun r => r.target)).sum ≠ 0 := ne_of_gt hTpos
  have hST : ((reqs.map f).map (fun r => r.current)).sum ≤
      ((reqs.map f).map (fun r => r.target)).sum :=
    List.sum_le_sum hclamp
  have hfoldT : ∀ l : List QuestRequirement,
      l.foldl (fun s req => s + req.target) 0 = (l.map (fun r => r.target)).sum := by
    intro l
    rw [foldl_add_sum (fun r => r.target) l 0, zero_add]
  have hfoldC : (updatedRequirements reqs reqType inc).foldl
        (fun s req => s +
          ((mapGet (questProgressMapAfter reqs reqType inc) req.type).map
            (fun p => p.1)).getD 0) 0
      = ((reqs.map f).map (fun r => r.current)).sum := by
    rw [foldl_add_sum _ _ 0, zero_add, hupd]
    congr 1
    refine List.map_congr_left ?_
    intro r' hr'
    obtain ⟨r, hr, rfl⟩ := List.mem_map.mp hr'
    rw [hgetf r hr]
    rfl
  have hmain : handleQuestProgress reqs reqType inc =
      (reqs.map f,
        if allRequirementsCompleted reqs reqType inc then (100 : ℤ)
        else ⌊(((reqs.map f).map (fun r => r.current)).sum /
            ((reqs.map f).map (fun r => r.target)).sum) * 100⌋) := by
    unfold handleQuestProgress
    by_cases hall : allRequirementsCompleted reqs reqType inc
    · rw [if_pos hall, if_pos hall, hupd]
    · rw [if_neg hall, if_neg hall, hfoldC, hupd, hfoldT]
  have hcompleted : allRequirementsCompleted reqs reqType inc = true →
      ((reqs.map f).map (fun r => r.current)).sum =
        ((reqs.map f).map (fun r => r.target)).sum := by
    intro hall
    congr 1
    refine List.map_congr_left ?_
    intro r' hr'
    obtain ⟨r, hr, rfl⟩ := List.mem_map.mp hr'
    have hallr := List.all_eq_true.mp (by rw [allRequirementsCompleted, hupd] at hall; exact hall)
      (f r) (List.mem_map_of_mem f hr)
    rw [hgetf r hr] at hallr
    have hge : (f r).target ≤ (f r).current := of_decide_eq_true hallr
    exact le_antisymm (hclamp (f r) (List.mem_map_of_mem f hr)) hge
  have hfloor100 : (⌊(100 : ℚ)⌋ : ℤ) = 100 := by norm_num
  refine ⟨by rw [hmain], ?_, ?_, ?_⟩
  · rw [hmain]
    exact hclamp
  · rw [hmain]
    by_cases hall : allRequirementsCompleted reqs reqType inc
    · rw [if_pos hall]
      have hSeq := hcompleted hall
      simp only [hSeq, div_self hTne, one_mul, hfloor100]
    · rw [if_neg hall]
  · rw [hmain]
    by_cases hall : allRequirementsCompleted reqs reqType inc
    · rw [if_pos hall]
    · rw [if_neg hall]
      have hdiv : (((reqs.map f).map (fun r => r.current)).sum /
          ((reqs.map f).map (fun r => r.target)).sum) ≤ 1 :=
        (div_le_one hTpos).mpr hST
      calc ⌊(((reqs.map f).map (fun r => r.current)).sum /
              ((reqs.map f).map (fun r => r.target)).sum) * 100⌋
          ≤ ⌊(100 : ℚ)⌋ := Int.floor_le_floor (by nlinarith)
        _ = 100 := hfloor100

/-- A well-formed two-requirement quest used to witness C6. -/
def questWitnessReqs : List QuestRequirement :=
  [{ type := "answer", current := 1, target := 3 },
   { type := "win", current := 2, target := 2 }]

/-- Witness for C6: incrementing the `answer` requirement by 5 on the
concrete quest clamps it to its target and keeps overall progress at most
100. -/
theorem quest_progress_clamped_witness :
    (0 : ℚ) ≤ 5 ∧
    ((handleQuestProgress questWitnessReqs "answer" 5).1 =
        questWitnessReqs.map (fun r =>
          if r.type = "answer" then { r with current := min (r.current + 5) r.target }
          else r) ∧
      (∀ r ∈ (handleQuestProgress questWitnessReqs "answer" 5).1,
        r.current ≤ r.target) ∧
      (handleQuestProgress questWitnessReqs "answer" 5).2 =
        ⌊(((handleQuestProgress questWitnessReqs "answer" 5).1.map
              (fun r => r.current)).sum /
            ((handleQuestProgress questWitnessReqs "answer" 5).1.map
              (fun r => r.target)).sum) * 100⌋ ∧
      (handleQuestProgress questWitnessReqs "answer" 5).2 ≤ 100) :=
  ⟨by norm_num,
    quest_progress_clamped questWitnessReqs "answer" 5
      { type := "answer", current := 1, target := 3 }
      (by decide) (by decide) rfl (by norm_num) (by decide)⟩

/-! ## Level system (the LevelSystem module)

`LevelSystem` reads `BASE_XP`, `GROWTH_FACTOR` and `MAX_LEVEL` from
`GameConfig.level`, whose defining module is not under `src/`; the claims
hold for every value of these constants, so the definitions below simply
take them as parameters. -/

/-- Source `LevelSystem.calculateXPForLevel` (lines 29–32 of the LevelSystem
file): `Infinity` (here `⊤` in `WithTop ℚ`) above `MAX_LEVEL`, otherwise
`Math.floor(BASE_XP * Math.pow(GROWTH_FACTOR, level - 1))`. -/
def calculateXPForLevel (baseXP growthFactor : ℚ) (maxLevel : ℕ) (level : ℕ) :
    WithTop ℚ :=
  if level > maxLevel then ⊤
  else ((⌊baseXP * growthFactor ^ ((level : ℤ) - 1)⌋ : ℚ) : WithTop ℚ)

/-- The `while (level < MAX_LEVEL && totalXP <= xp)` loop of
`LevelSystem.calculateLevel` (lines 68–79): each iteration adds
`calculateXPForLevel(level)` to `totalXP`, breaks if `totalXP > xp`, else
increments `level`. The loop increments `level` on every iteration and stops
once `level ≥ MAX_LEVEL`, so running it with fuel `MAX_LEVEL` from
`level = 1` (the invariant `fuel + level = MAX_LEVEL + 1` holds at every
call) never exhausts the fuel before the loop guard fails: the fuel
translation computes exactly what the source loop computes. -/
def calcLevelAux (baseXP growthFactor : ℚ) (maxLevel : ℕ) (xp : ℚ) :
    ℕ → ℕ → WithTop ℚ → ℕ
  | 0, level, _ => level
  | fuel + 1, level, totalXP =>
    if level < maxLevel ∧ totalXP ≤ (xp : WithTop ℚ) then
      let t := totalXP + calculateXPForLevel baseXP growthFactor maxLevel level
      if (xp : WithTop ℚ) < t then level
      else calcLevelAux baseXP growthFactor maxLevel xp fuel (level + 1) t
    else level

/-- Source `LevelSystem.calculateLevel` (lines 68–79): runs the loop from
`level = 1`, `totalXP = 0` and returns `Math.min(level, MAX_LEVEL)`. -/
def calculateLevel (baseXP growthFactor : ℚ) (maxLevel : ℕ) (xp : ℚ) : ℕ :=
  min (calcLevelAux baseXP growthFactor maxLevel xp maxLevel 1 0) maxLevel

/-- The loop never returns a level below the one it started from. -/
theorem calcLevelAux_ge (b g : ℚ) (m : ℕ) (xp : ℚ) :
    ∀ (fuel level : ℕ) (t : WithTop ℚ), level ≤ calcLevelAux b g m xp fuel level t := by
  intro fuel
  induction fuel with
  | zero => intro level t; simp [calcLevelAux]
  | succ n ih =>
    intro level t
    simp only [calcLevelAux]
    split
    · split
      · exact le_refl level
      · exact le_trans (Nat.le_succ level) (ih (level + 1) _)
    · exact le_refl level

/-- The loop result is monotone in the XP argument. -/
theorem calcLevelAux_mono (b g : ℚ) (m : ℕ) (xp1 xp2 : ℚ) (hxp : xp1 ≤ xp2) :
    ∀ (fuel level : ℕ) (t : WithTop ℚ),
      calcLevelAux b g m xp1 fuel level t ≤ calcLevelAux b g m xp2 fuel level t := by
  intro fuel
  induction fuel with
  | zero => intro level t; simp [calcLevelAux]
  | succ n ih =>
    intro level t
    by_cases hg : level < m ∧ t ≤ (xp1 : WithTop ℚ)
    · have hg2 : level < m ∧ t ≤ (xp2 : WithTop ℚ) :=
        ⟨hg.1, hg.2.trans (WithTop.coe_le_coe.mpr hxp)⟩
      simp only [calcLevelAux, if_pos hg, if_pos hg2]
      by_cases hlt : (xp1 : WithTop ℚ) < t + calculateXPForLevel b g m level
      · rw [if_pos hlt]
        by_cases hlt2 : (xp2 : WithTop ℚ) < t + calculateXPForLevel b g m level
        · rw [if_pos hlt2]
        · rw [if_neg hlt2]
          exact le_trans (Nat.le_succ level) (calcLevelAux_ge b g m xp2 n (level + 1) _)
      · have hle : t + calculateXPForLevel b g m level ≤ (xp2 : WithTop ℚ) :=
          le_trans (not_lt.mp hlt) (WithTop.coe_le_coe.mpr hxp)
        rw [if_neg hlt, if_neg (not_lt.mpr hle)]
        exact ih (level + 1) _
    · simp only [calcLevelAux, if_neg hg]
      exact calcLevelAux_ge b g m xp2 (n + 1) level t

/-- C7: the level computed from XP is monotone — for all `xp1 < xp2` with
`xp1 ≥ 0`, `calculateLevel xp1 ≤ calculateLevel xp2` — and capped: no XP
value ever produces a level above `MAX_LEVEL`. Holds for every choice of the
`GameConfig.level` constants. -/
theorem level_monotonic_and_capped (baseXP growthFactor : ℚ) (maxLevel : ℕ)
    (xp1 xp2 : ℚ) (h0 : 0 ≤ xp1) (h12 : xp1 < xp2) :
    calculateLevel baseXP growthFactor maxLevel xp1 ≤
      calculateLevel baseXP growthFactor maxLevel xp2 ∧
    ∀ xp : ℚ, calculateLevel baseXP growthFactor maxLevel xp ≤ maxLevel := by
  constructor
  · exact min_le_min
      (calcLevelAux_mono baseXP growthFactor maxLevel xp1 xp2 (le_of_lt h12) maxLevel 1 0)
      (le_refl maxLevel)
  · intro xp
    exact min_le_right _ _

/-- Witness for C7 with the conventional curve `BASE_XP = 100`,
`GROWTH_FACTOR = 3/2`, `MAX_LEVEL = 50` at `xp1 = 0 < xp2 = 250`. -/
theorem level_monotonic_and_capped_witness :
    (0 : ℚ) ≤ 0 ∧ (0 : ℚ) < 250 ∧
    (calculateLevel 100 (3 / 2) 50 0 ≤ calculateLevel 100 (3 / 2) 50 250 ∧
      ∀ xp : ℚ, calculateLevel 100 (3 / 2) 50 xp ≤ 50) :=
  ⟨by norm_num, by norm_num,
    level_monotonic_and_capped 100 (3 / 2) 50 0 250 (by norm_num) (by norm_num)⟩

/-- Witness for C9: a save stamped at time 0, recovered at two hours, is
discarded and deleted; recovered at half an hour, it is returned. -/
theorem recover_session_staleness_witness :
    (let saved : SavedBattleState :=
      { battle := completedBattle, lastError := none, timestamp := 0 }
    let row : BattleSave := { rowId := "r1", battle_state := some saved }
    recoverBattleState (some row) 7200000 = (none, none) ∧
      recoverBattleState (some row) 1800000 = (some saved, none)) := by
  refine ⟨?_, ?_⟩
  · exact (recover_session_staleness _ _ 7200000 rfl).2.1 (by decide)
  · exact (recover_session_staleness _ _ 1800000 rfl).2.2 (by decide)
